import Mathlib

/-!
Verification of the Servibot document indexing and retrieval engine.

The Python source (backend/app/rag/chunking.py, ingest.py, query.py,
embeddings.py and backend/app/api/upload.py) is shallowly embedded here:
strings become `List Char`, dicts become structures or association lists,
exceptions become `Except`, and external collaborators (file system,
embedding model, vector store) become explicit inputs or oracle functions.
Loops whose termination is in question are given an explicit fuel
parameter and return `Option`; `none` means the loop did not finish
within the given fuel.
-/

set_option maxRecDepth 10000
set_option linter.unusedVariables false
set_option linter.unusedTactic false

abbrev Str := List Char

/-- Python whitespace characters as used by `str.strip`, `str.split` and
the regex class `\s` (ASCII range). -/
def isPySpace (c : Char) : Bool :=
  c == ' ' || c == '\t' || c == '\n' || c == '\r' || c == '\x0b' || c == '\x0c'

/-- Python `str.strip()`: remove leading and trailing whitespace. -/
def pyStrip (s : Str) : Str :=
  ((s.dropWhile isPySpace).reverse.dropWhile isPySpace).reverse

/-- True when `s.strip()` is empty, i.e. the Python test
`not s or not s.strip()` holds. -/
def stripEmpty (s : Str) : Bool :=
  (pyStrip s).isEmpty

/-- Python slicing `s[a:b]` for `0 ≤ a ≤ b` (clamping at the ends, as
Python does). -/
def sliceL (s : Str) (a b : Nat) : Str :=
  (s.drop a).take (b - a)

/-- Python `s.replace("\r\n", "\n")`. -/
def replaceCRLF : Str → Str
  | [] => []
  | '\r' :: '\n' :: rest => '\n' :: replaceCRLF rest
  | c :: rest => c :: replaceCRLF rest

/-- Python `s.rfind(t)` for a single character `t`: index of the last
occurrence, if any. -/
def rfindIdx (t : Char) (s : Str) : Option Nat :=
  go s 0 none
where
  go : Str → Nat → Option Nat → Option Nat
    | [], _, best => best
    | c :: rest, i, best => go rest (i + 1) (if c == t then some i else best)

/-- Python `s.rfind(' ')`: index of the last space, if any. -/
def rfindSpace (s : Str) : Option Nat :=
  rfindIdx ' ' s

/-- Python lowercasing of a string (ASCII; the five permanent-error
markers and the stored messages compared against them are ASCII). -/
def toLowerStr (s : Str) : Str :=
  s.map Char.toLower

/-- Substring containment, Python `needle in haystack`. -/
def containsSub (haystack needle : Str) : Bool :=
  match haystack with
  | [] => needle.isEmpty
  | _ :: rest => needle.isPrefixOf haystack || containsSub rest needle

/-- Python `os.path.basename`: the part after the last slash. -/
def basenameOf (p : Str) : Str :=
  (p.reverse.takeWhile (fun c => c != '/')).reverse

/-- Python `pathlib.Path(p).stem`: the basename without its final
extension; the dot starting the extension may be neither the first nor
the last character of the name. -/
def stemOf (p : Str) : Str :=
  let name := basenameOf p
  match rfindIdx '.' name with
  | some i => if 0 < i && i + 1 < name.length then name.take i else name
  | none => name

/-! ## `ingest.chunk_text` (backend/app/rag/ingest.py, lines 79-101)

```python
if not text: return []
text = text.replace("\r\n", "\n")
start = 0; chunks = []; length = len(text)
while start < length:
    end = min(start + chunk_size, length)
    chunks.append(text[start:end])
    start = end - overlap if end < length else end
return chunks
```

The `while` loop is modelled with fuel; `none` means the loop did not
finish (which happens in Python when `overlap ≥ chunk_size`). -/

def ctGo (cs ov : Nat) (text : Str) : Nat → Nat → Option (List Str)
  | 0, _ => none
  | fuel + 1, start =>
    if start < text.length then
      let e := min (start + cs) text.length
      match ctGo cs ov text fuel (if e < text.length then e - ov else e) with
      | none => none
      | some rest => some (sliceL text start e :: rest)
    else
      some []

def chunk_text (cs ov : Nat) (text : Str) (fuel : Nat) : Option (List Str) :=
  if text = [] then some [] else ctGo cs ov (replaceCRLF text) fuel 0

example : chunk_text 3 1 ("abcdefg".data) 10 =
    some ["abc".data, "cde".data, "efg".data] := by decide

example : chunk_text 5 2 ("hello".data) 10 = some ["hello".data] := by decide

/-! ## `ChunkingStrategy` (backend/app/rag/chunking.py)

Configuration mirrors the `__init__` defaults:
`chunk_size=1000, overlap=200, respect_sentences=True, min_chunk_size=100`. -/

structure ChunkCfg where
  chunk_size : Nat := 1000
  overlap : Nat := 200
  respect_sentences : Bool := true
  min_chunk_size : Nat := 100
deriving DecidableEq, Repr

/-- Matching the tail of the paragraph separator regex `\n\s*\n`: given
the characters after an initial newline, greedily consume `\s*` and end
at a newline; returns the number of characters consumed, i.e. the offset
of the last newline reachable through whitespace, if any. -/
def sepTail (s : Str) : Option Nat :=
  go s 0 none
where
  go : Str → Nat → Option Nat → Option Nat
    | [], _, best => best
    | c :: rest, k, best =>
      if isPySpace c then
        go rest (k + 1) (if c == '\n' then some (k + 1) else best)
      else best

/-- Python `re.split(r'\n\s*\n', text)`: a match starts at a newline and
extends through whitespace to the last newline of that whitespace run. -/
def splitParas (s : Str) : List Str :=
  go [] s
where
  go (acc : Str) : Str → List Str
    | [] => [acc.reverse]
    | c :: rest =>
      if c == '\n' then
        match sepTail rest with
        | some n => acc.reverse :: go [] (rest.drop n)
        | none => go (c :: acc) rest
      else go (c :: acc) rest
  termination_by s => s.length
  decreasing_by
    · simp only [List.length_cons, List.length_drop]; omega
    · simp
    · simp

/-- Sentence terminators of the regex class `[.!?…]`. -/
def isSentEnder (c : Char) : Bool :=
  c == '.' || c == '!' || c == '?' || c == '…'

/-- Characters of the lookahead class `[A-ZÁÉÍÓÚÑ]`. -/
def isUpperBoundary (c : Char) : Bool :=
  (decide ('A' ≤ c) && decide (c ≤ 'Z')) ||
    c == 'Á' || c == 'É' || c == 'Í' || c == 'Ó' || c == 'Ú' || c == 'Ñ'

/-- Whether the previous character (head of the reversed accumulator) is
a sentence terminator — the regex lookbehind `(?<=[.!?…])`. -/
def prevEnder : Str → Bool
  | p :: _ => isSentEnder p
  | [] => false

/-- Whether the first character of a string is in the lookahead class. -/
def headUpper : Str → Bool
  | u :: _ => isUpperBoundary u
  | [] => false

/-- Skip a run of whitespace: `s.drop` over the whitespace prefix;
equals `s.dropWhile isPySpace`. -/
def dropSpaces (s : Str) : Str :=
  s.drop (s.takeWhile isPySpace).length

/-- Python `re.split(r'(?<=[.!?…])\s+(?=[A-ZÁÉÍÓÚÑ])', para)`: split
where a sentence terminator is followed by whitespace whose first
non-whitespace successor is in the uppercase class; the whitespace run
is consumed. -/
def splitSent (s : Str) : List Str :=
  go [] s
where
  go (acc : Str) : Str → List Str
    | [] => [acc.reverse]
    | c :: rest =>
      if h : (isPySpace c && prevEnder acc
          && headUpper (dropSpaces (c :: rest))) = true then
        acc.reverse :: go [] (dropSpaces (c :: rest))
      else go (c :: acc) rest
  termination_by s => s.length
  decreasing_by
    all_goals simp_all only [Bool.and_eq_true]
    · obtain ⟨⟨hc, _⟩, _⟩ := h
      simp only [dropSpaces, List.takeWhile_cons, hc, if_true,
        List.length_cons, List.length_drop]
      omega
    · simp

/-- `ChunkingStrategy.split_into_sentences` (chunking.py, lines 48-75):
paragraph-split, then sentence-split each non-blank paragraph, keeping
stripped fragments longer than 10 characters. -/
def split_into_sentences (text : Str) : List Str :=
  (splitParas text).foldl
    (fun acc para =>
      if stripEmpty para then acc
      else
        acc ++ (splitSent para).filterMap (fun sent =>
          let s := pyStrip sent
          if !s.isEmpty && decide (s.length > 10) then some s else none))
    []

/-- The overlap-suffix computation of `chunk_by_sentences` (lines
107-115): walk the closed chunk backwards, taking sentences while the
accumulated length stays within `overlap`. -/
def ovGo (ov : Nat) : List Str → Nat → List Str → List Str × Nat
  | [], len, acc => (acc, len)
  | s :: rest, len, acc =>
    if len + s.length ≤ ov then ovGo ov rest (len + s.length) (s :: acc)
    else (acc, len)

def overlapSentences (ov : Nat) (cur : List Str) : List Str × Nat :=
  ovGo ov cur.reverse 0 []

/-- Main loop of `ChunkingStrategy.chunk_by_sentences` (lines 77-129). -/
def cbsGo (cs ov : Nat) : List Str → List Str → Nat → List Str → List Str
  | [], cur, _, chunks =>
    if cur.isEmpty then chunks else chunks ++ [List.intercalate [' '] cur]
  | s :: rest, cur, clen, chunks =>
    if decide (clen + s.length > cs) && !cur.isEmpty then
      let closed := List.intercalate [' '] cur
      let ovp := overlapSentences ov cur
      cbsGo cs ov rest (ovp.1 ++ [s]) (ovp.2 + s.length) (chunks ++ [closed])
    else cbsGo cs ov rest (cur ++ [s]) (clen + s.length) chunks

def chunk_by_sentences (cs ov : Nat) (text : Str) : List Str :=
  cbsGo cs ov (split_into_sentences text) [] 0 []

/-- Main loop of `ChunkingStrategy.chunk_by_paragraphs` (lines 174-229).
The Python test `para_length > self.chunk_size * 1.5` is written as
`2 * plen > 3 * cs` (exact for the integer sizes involved). -/
def cbpGo (cs ov : Nat) : List Str → List Str → Nat → List Str → List Str
  | [], cur, _, chunks =>
    if cur.isEmpty then chunks
    else chunks ++ [List.intercalate "\n\n".data cur]
  | para0 :: rest, cur, clen, chunks =>
    let para := pyStrip para0
    if para.isEmpty then cbpGo cs ov rest cur clen chunks
    else
      let plen := para.length
      if decide (2 * plen > 3 * cs) then
        let chunks1 :=
          if cur.isEmpty then chunks
          else chunks ++ [List.intercalate "\n\n".data cur]
        cbpGo cs ov rest [] 0 (chunks1 ++ chunk_by_sentences cs ov para)
      else if decide (clen + plen > cs) && !cur.isEmpty then
        let chunks1 := chunks ++ [List.intercalate "\n\n".data cur]
        let seed :=
          match cur.getLast? with
          | some lastP =>
            if lastP.length ≤ ov then ([lastP], lastP.length) else ([], 0)
          | none => ([], 0)
        cbpGo cs ov rest (seed.1 ++ [para]) (seed.2 + plen) chunks1
      else cbpGo cs ov rest (cur ++ [para]) (clen + plen) chunks

def chunk_by_paragraphs (cs ov : Nat) (text : Str) : List Str :=
  cbpGo cs ov (splitParas text) [] 0 []

/-- The `end` computation of one `chunk_by_characters` iteration (lines
149-158), including the backward word-boundary nudge.  Natural
subtraction makes `end - 100 < 0` agree with the Python `max`. -/
def cbcEnd (cfg : ChunkCfg) (text : Str) (start : Nat) : Nat :=
  let e0 := min (start + cfg.chunk_size) text.length
  if decide (e0 < text.length) && cfg.respect_sentences then
    match rfindSpace (sliceL text (max start (e0 - 100)) e0) with
    | some ls => if 0 < ls then max start (e0 - 100) + ls else e0
    | none => e0
  else e0

/-- The chunk appended in one iteration, if any (lines 160-163): the
stripped slice is kept only when non-empty and at least
`min_chunk_size` long. -/
def cbcEmit (cfg : ChunkCfg) (text : Str) (start : Nat) : Option Str :=
  let c := pyStrip (sliceL text start (cbcEnd cfg text start))
  if !c.isEmpty && cfg.min_chunk_size ≤ c.length then some c else none

/-- One iteration of the `chunk_by_characters` loop body (lines
148-171): the next value of `start` and the chunk appended, if any.
Natural subtraction makes `end - overlap ≤ 0` agree with the Python
guard `if start <= 0: start = end`. -/
def cbcNext (cfg : ChunkCfg) (text : Str) (start : Nat) : Nat × Option Str :=
  let e := cbcEnd cfg text start
  let s1 := if e < text.length then e - cfg.overlap else e
  let s2 := if s1 = 0 then e else s1
  (s2, cbcEmit cfg text start)

/-- The `while start < length` loop of `chunk_by_characters`, with fuel. -/
def cbcGo (cfg : ChunkCfg) (text : Str) : Nat → Nat → List Str → Option (List Str)
  | 0, _, _ => none
  | fuel + 1, start, acc =>
    if start < text.length then
      let step := cbcNext cfg text start
      cbcGo cfg text fuel step.1 (acc ++ step.2.toList)
    else some acc

def chunk_by_characters (cfg : ChunkCfg) (text : Str) (fuel : Nat) :
    Option (List Str) :=
  if text.isEmpty then some [] else cbcGo cfg text fuel 0 []

/-- Python `re.sub(r'\n{3,}', '\n\n', s)`: collapse maximal runs of
three or more newlines to exactly two.  `nl` counts pending newlines;
a maximal run of `nl` newlines is flushed as `min nl 2` newlines, which
leaves runs of one or two unchanged and truncates longer runs. -/
def collapseNewlines (s : Str) : Str :=
  go s 0
where
  go : Str → Nat → Str
    | [], nl => List.replicate (min nl 2) '\n'
    | c :: rest, nl =>
      if c == '\n' then go rest (nl + 1)
      else List.replicate (min nl 2) '\n' ++ c :: go rest 0

/-- Search for the paragraph separator `\n\s*\n` (`self.paragraph_sep.search`). -/
def hasParagraphSep : Str → Bool
  | [] => false
  | c :: rest => (c == '\n' && (sepTail rest).isSome) || hasParagraphSep rest

/-- Search for a sentence boundary (`self.sentence_endings.search`). -/
def hasSentenceBoundary : Str → Bool
  | [] => false
  | c :: rest =>
    (isSentEnder c && (match rest with | d :: _ => isPySpace d | [] => false)
      && headUpper (rest.dropWhile isPySpace))
    || hasSentenceBoundary rest

inductive StratKind
  | auto | sentences | paragraphs | characters
deriving DecidableEq, Repr

def strategyLabel : StratKind → Str
  | .auto => "auto".data
  | .sentences => "sentences".data
  | .paragraphs => "paragraphs".data
  | .characters => "characters".data

/-- A produced chunk record `{text, index, length, strategy}` (chunking.py
lines 272-278). -/
structure ChunkRec where
  text : Str
  index : Nat
  length : Nat
  strategy : Str
deriving DecidableEq, Repr

/-- `ChunkingStrategy.chunk` (chunking.py, lines 231-281): guard on
blank input, normalize whitespace, auto-select a strategy, run it, and
attach metadata.  The fuel feeds the character-mode loop; `none` means
that loop did not finish. -/
def ChunkingStrategy.chunk (cfg : ChunkCfg) (text : Str)
    (strategy : StratKind) (fuel : Nat) : Option (List ChunkRec) :=
  if stripEmpty text then some []
  else
    let t := collapseNewlines (replaceCRLF text)
    let strat :=
      if strategy = StratKind.auto then
        if hasParagraphSep t && decide (t.length > cfg.chunk_size) then
          StratKind.paragraphs
        else if hasSentenceBoundary t then StratKind.sentences
        else StratKind.characters
      else strategy
    let chunksO : Option (List Str) :=
      match strat with
      | .sentences => some (chunk_by_sentences cfg.chunk_size cfg.overlap t)
      | .paragraphs => some (chunk_by_paragraphs cfg.chunk_size cfg.overlap t)
      | _ => chunk_by_characters cfg t fuel
    chunksO.map (fun chunks =>
      chunks.enum.map (fun ic =>
        { text := ic.2, index := ic.1, length := ic.2.length,
          strategy := strategyLabel strat }))

/-! ## Embedding adapter (backend/app/rag/embeddings.py)

The sentence-transformers model is an external collaborator; it is
passed in as an oracle `encode`.  The returned Bool records whether the
model was invoked. -/

def generate_embeddings (encode : List Str → List (List Int))
    (texts : List Str) : List (List Int) × Bool :=
  if texts.isEmpty then ([], false) else (encode texts, true)

/-- `embed_query` (embeddings.py, lines 96-111). -/
def embed_query (encode : List Str → List (List Int)) (query : Str) :
    List Int × Bool :=
  if stripEmpty query then ([], false)
  else
    let r := generate_embeddings encode [query]
    (r.1.headD [], r.2)

/-! ## Metadata dictionaries -/

inductive MetaVal
  | s (v : Str)
  | n (v : Nat)
deriving DecidableEq, Repr

abbrev MetaDict := List (Str × MetaVal)

def metaLookup (m : MetaDict) (k : Str) : Option MetaVal :=
  (m.find? (fun kv => kv.1 == k)).map (fun kv => kv.2)

def metaFileId (m : MetaDict) : Option Str :=
  match metaLookup m "file_id".data with
  | some (.s v) => some v
  | _ => none

/-- The per-chunk metadata built by `index_file` (ingest.py, line 381):
`{"source": os.path.basename(file_path), "chunk_index": i, "file_id": file_id}`. -/
def chunkMeta (src : Str) (i : Nat) (fid : Str) : MetaDict :=
  [("source".data, .s src), ("chunk_index".data, .n i), ("file_id".data, .s fid)]

/-! ## `store_in_chroma` (ingest.py, lines 161-213)

The chroma client is external; the model records the arguments of the
`collection.add` call and the returned summary
`{"collection": name, "count": len(texts)}`. -/

structure StoreCall where
  ids : List Str
  documents : List Str
  embeddings : List (List Int)
  metadatas : List MetaDict
deriving DecidableEq, Repr

structure StoreSummary where
  collection : Str
  count : Nat
deriving DecidableEq, Repr

def store_in_chroma (docIdPref : Str) (texts : List Str)
    (embeddings : List (List Int)) (metadatas : Option (List MetaDict)) :
    StoreCall × StoreSummary :=
  let ids := (List.range texts.length).map
    (fun i => docIdPref ++ '_' :: (Nat.repr i).data)
  let metas := metadatas.getD (texts.map (fun _ => []))
  ({ ids := ids, documents := texts, embeddings := embeddings,
     metadatas := metas },
   { collection := "servibot_docs".data, count := texts.length })

/-! ## `index_file` (ingest.py, lines 327-389)

File system, extraction, embedding model and chroma are external; their
outcomes are inputs (`Except` carries the exception text `str(e)`).
`chunk_text` is in-repo pure code, so its `except` branch (line 368)
cannot fire and is not modelled; its loop runs on the given fuel and an
unfinished loop makes the whole pipeline return `none`. -/

structure IndexDeps where
  pathExists : Bool
  sizeRes : Except Str Nat
  extractRes : Except Str Str
  embedRes : Except Str (List (List Int))
  storeRes : Except Str Unit

structure IndexResult where
  status : Str
  message : Option Str
  indexed : Option Nat
  collection : Option Str
deriving DecidableEq, Repr

def errRes (m : Str) : IndexResult :=
  { status := "error".data, message := some m, indexed := none,
    collection := none }

/-- `if not file_id: file_id = Path(file_path).stem` (ingest.py, lines
332-333). -/
def resolveFileId (filePath : Str) (fileId0 : Option Str) : Str :=
  match fileId0 with
  | some f => if f.isEmpty then stemOf filePath else f
  | none => stemOf filePath

def index_file (cs ov : Nat) (filePath : Str) (fileId0 : Option Str)
    (deps : IndexDeps) (fuel : Nat) :
    Option (IndexResult × Option StoreCall) :=
  let fid := resolveFileId filePath fileId0
  if !deps.pathExists then
    some (errRes ("File not found: ".data ++ filePath), none)
  else
    match deps.sizeRes with
    | .error e => some (errRes ("Error checking file: ".data ++ e), none)
    | .ok sz =>
      if sz = 0 then some (errRes "File is empty (0 bytes)".data, none)
      else
        match deps.extractRes with
        | .error e =>
          some (errRes ("Text extraction failed: ".data ++ e.take 200), none)
        | .ok text =>
          if stripEmpty text then
            some (errRes ("No text could be extracted from file. It may be " ++
              "empty, password-protected, or in an unsupported format.").data,
              none)
          else
            match chunk_text cs ov text fuel with
            | none => none
            | some chunks =>
              if chunks.isEmpty then
                some (errRes
                  "No text chunks could be created from extracted text".data,
                  none)
              else
                match deps.embedRes with
                | .error e =>
                  some (errRes ("Embedding failed: ".data ++ e.take 200), none)
                | .ok embs =>
                  match deps.storeRes with
                  | .error e =>
                    some (errRes
                      ("Database storage failed: ".data ++ e.take 200), none)
                  | .ok _ =>
                    let metas := (List.range chunks.length).map
                      (fun i => chunkMeta (basenameOf filePath) i fid)
                    let sc := store_in_chroma fid chunks embs (some metas)
                    some ({ status := "success".data, message := none,
                            indexed := some sc.2.count,
                            collection := some sc.2.collection }, some sc.1)

/-! ## Query engine (backend/app/rag/query.py) -/

/-- A chroma reply field that may be a flat list or a list of lists
(one inner list per submitted query embedding). -/
inductive ChromaField (α : Type)
  | flat (l : List α)
  | nested (ll : List (List α))
deriving DecidableEq, Repr

/-- The unwrapping of query.py lines 84-86:
`x_raw[0] if x_raw and isinstance(x_raw[0], list) else x_raw`. -/
def unwrapField {α : Type} : ChromaField α → List α
  | .flat l => l
  | .nested [] => []
  | .nested (h :: _) => h

structure QueryRecord (D M R : Type) where
  document : Option D
  metadata : Option M
  distance : Option R
deriving DecidableEq, Repr

/-- `_parse_chroma_results` (query.py, lines 71-100). -/
def parse_chroma_results {D M R : Type} (docsF : ChromaField D)
    (metasF : ChromaField M) (distsF : ChromaField R) (topK : Nat) :
    List (QueryRecord D M R) :=
  let docs := unwrapField docsF
  let metas := unwrapField metasF
  let dists := unwrapField distsF
  (List.range (min docs.length topK)).map (fun i =>
    { document := docs.get? i, metadata := metas.get? i,
      distance := dists.get? i })

/-- A chroma `collection.query` reply: documents, metadatas, distances. -/
abbrev ChromaReply :=
  ChromaField Str × ChromaField MetaDict × ChromaField Int

structure SearchDeps where
  encode : List Str → List (List Int)
  store : List Int → Nat → Option MetaDict → ChromaReply

/-- `semantic_search` (query.py, lines 13-68).  The two Bools record
whether the embedding service and the vector store were invoked. -/
def semantic_search (deps : SearchDeps) (query : Str) (topK : Nat)
    (filterMeta : Option MetaDict) :
    List (QueryRecord Str MetaDict Int) × Bool × Bool :=
  if stripEmpty query then ([], false, false)
  else
    let emb := (embed_query deps.encode query).1
    if emb.isEmpty then ([], true, false)
    else
      let reply := deps.store emb topK filterMeta
      (parse_chroma_results reply.1 reply.2.1 reply.2.2 topK, true, true)

/-! ## Upload status store and workers (backend/app/api/upload.py)

A status record is the per-file dict `{status, message, attempts, debug}`.
Each mutation performed under `UPLOAD_STATUS_LOCK` is modelled as a pure
step on a record (or on `Option` of one where the code first does
`setdefault(fid, {})`). -/

inductive DebugVal
  | res (r : IndexResult)
  | exc (e : Str)
deriving DecidableEq, Repr

structure StatusRec where
  status : Str
  message : Str
  attempts : Nat
  debug : Option DebugVal
deriving DecidableEq, Repr

/-- The record written by `upload_file` (upload.py, line 196). -/
def uploadInitRec : StatusRec :=
  { status := "uploaded".data,
    message := "File uploaded, pending indexing".data,
    attempts := 0, debug := none }

/-- `_background_index` start (upload.py, lines 203-208): `setdefault`,
then status `indexing`; `attempts` is `setdefault`-ed, keeping any
existing count. -/
def bgIndexStart (r0 : Option StatusRec) : StatusRec :=
  let r := r0.getD { status := [], message := [], attempts := 0, debug := none }
  { r with status := "indexing".data, message := "Indexing in progress".data }

/-- `_background_index` result handling (upload.py, lines 228-242). -/
def bgIndexFinish (res : IndexResult) (r : StatusRec) : StatusRec :=
  if res.status == "success".data then
    { r with
      debug := some (.res res)
      status := "indexed".data
      message := "✓ Indexed ".data ++ (Nat.repr (res.indexed.getD 0)).data
        ++ " chunks".data }
  else
    { r with
      debug := some (.res res)
      status := "error".data
      message := '✗' :: ' ' ::
        (res.message.getD "Unknown indexing error".data) }

/-- `_background_index` outer exception handler (upload.py, lines
244-253): status `error`, `attempts` incremented. -/
def bgIndexCrash (e : Str) (r : StatusRec) : StatusRec :=
  { r with
    status := "error".data
    message := "✗ Critical error: ".data ++ e.take 150
    debug := some (.exc e)
    attempts := r.attempts + 1 }

/-- The five permanent-error substrings of `_retry_worker` (upload.py,
lines 74-80). -/
def permanentErrors : List Str :=
  ["file is empty".data, "no text could be extracted".data,
   "password-protected".data, "unsupported format".data,
   "file not found".data]

/-- `is_permanent = any(perm in error_msg for perm in permanent_errors)`
with `error_msg = st.get("message", "").lower()` (upload.py, lines 73-82). -/
def isPermanentError (msg : Str) : Bool :=
  permanentErrors.any (fun p => containsSub (toLowerStr msg) p)

/-- First lock-held write of a retry attempt (upload.py, lines 90-95):
status `retrying`, `attempts` incremented. -/
def retryMark (r : StatusRec) : StatusRec :=
  { r with
    status := "retrying".data
    attempts := r.attempts + 1
    message := "Retrying... (attempt ".data
      ++ (Nat.repr (r.attempts + 1)).data ++ ")".data }

/-- Second lock-held write of a retry attempt (upload.py, lines
101-111), recording the `index_file` outcome. -/
def retryFinish (pipeline : IndexResult) (m : StatusRec) : StatusRec :=
  if pipeline.status == "success".data then
    { m with
      status := "indexed".data
      message := "✓ Indexed ".data
        ++ (Nat.repr (pipeline.indexed.getD 0)).data
        ++ " chunks (after retry)".data
      debug := some (.res pipeline) }
  else
    { m with
      status := "error".data
      message := '✗' :: ' ' ::
        (pipeline.message.getD "Retry failed".data)
      debug := some (.res pipeline) }

/-- One pass of `_retry_worker` over a single status record (upload.py,
lines 64-116).  `pipeline` is the `index_file` outcome that would be
observed if the pipeline were re-invoked; the Bool reports whether it
actually was. -/
def retry_worker_step (maxRetry : Nat) (pipeline : IndexResult)
    (r : StatusRec) : StatusRec × Bool :=
  if r.status == "error".data && decide (r.attempts < maxRetry) then
    if isPermanentError r.message then (r, false)
    else (retryFinish pipeline (retryMark r), true)
  else (r, false)

/-- `_bg_reindex` start (upload.py, lines 448-453): status `indexing`,
`attempts` reset to 0. -/
def reindexStart (r0 : Option StatusRec) : StatusRec :=
  let r := r0.getD { status := [], message := [], attempts := 0, debug := none }
  { r with
    status := "indexing".data
    message := "Manual reindexing started".data
    attempts := 0 }

/-- `_bg_reindex` result handling (upload.py, lines 455-464). -/
def reindexFinish (res : IndexResult) (r : StatusRec) : StatusRec :=
  if res.status == "success".data then
    { r with
      debug := some (.res res)
      status := "indexed".data
      message := "Indexed ".data ++ (Nat.repr (res.indexed.getD 0)).data
        ++ " chunks".data }
  else
    { r with
      debug := some (.res res)
      status := "error".data
      message := res.message.getD "Indexing failed".data }

/-- `_bg_reindex` exception handler (upload.py, line 467): the whole
record is overwritten, with `attempts` incremented. -/
def reindexCrash (e : Str) (r0 : Option StatusRec) : StatusRec :=
  { status := "error".data, message := e,
    attempts := ((r0.map (fun r => r.attempts)).getD 0) + 1,
    debug := some (.exc e) }

/-- The transition edges allowed by the spec:
`uploaded → indexing → {indexed | error}` and
`error → retrying → {indexed | error}`. -/
def allowedEdge (a b : Str) : Bool :=
  [("uploaded", "indexing"), ("indexing", "indexed"), ("indexing", "error"),
   ("error", "retrying"), ("retrying", "indexed"),
   ("retrying", "error")].any
    (fun p => p.1.data == a && p.2.data == b)

/-! ## Vector-store deletion and the delete endpoint

`delete_file_from_chroma` (ingest.py, lines 216-271) against an
abstract collection: `collection.get(where={"file_id": fid})` collects
the ids of entries whose metadata `file_id` equals `fid`, then
`collection.delete(ids=...)` removes entries with those ids. -/

structure StoredEntry where
  id : Str
  document : Str
  meta : MetaDict
deriving DecidableEq, Repr

def delete_file_from_chroma (coll : List StoredEntry) (fid : Str) :
    List StoredEntry × Nat :=
  let ids := (coll.filter (fun e => metaFileId e.meta == some fid)).map
    (fun e => e.id)
  if ids.isEmpty then (coll, 0)
  else (coll.filter (fun e => !(ids.contains e.id)), ids.length)

abbrev StatusMap := List (Str × StatusRec)

def eraseKey (m : StatusMap) (k : Str) : StatusMap :=
  m.filter (fun kv => !(kv.1 == k))

def lookupKey (m : StatusMap) (k : Str) : Option StatusRec :=
  (m.find? (fun kv => kv.1 == k)).map (fun kv => kv.2)

inductive ApiOutcome
  | ok
  | httpError (code : Nat) (detail : Str)
deriving DecidableEq, Repr

/-- The shared state touched by the `delete_file` endpoint: the vector
collection, the status map, whether the physical file exists, and
whether `os.remove` would succeed on it. -/
structure ApiState where
  coll : List StoredEntry
  statusMap : StatusMap
  fileOnDisk : Bool
  removeOk : Bool
deriving Repr

/-- `delete_file` endpoint (upload.py, lines 479-523): delete vectors,
then the physical file (failure → 500 before the status map is
touched), then the status record; a missing physical file yields a 404
only after the other mutations. -/
def delete_file (st : ApiState) (fid : Str) : ApiOutcome × ApiState :=
  let coll1 := (delete_file_from_chroma st.coll fid).1
  if st.fileOnDisk then
    if st.removeOk then
      (.ok, { coll := coll1, statusMap := eraseKey st.statusMap fid,
              fileOnDisk := false, removeOk := st.removeOk })
    else
      (.httpError 500 "Failed to delete file".data, { st with coll := coll1 })
  else
    (.httpError 404 ("File not found: ".data ++ fid),
     { coll := coll1, statusMap := eraseKey st.statusMap fid,
       fileOnDisk := st.fileOnDisk, removeOk := st.removeOk })

/-! ## Theorems -/

/-- Claim C2: every status record whose status is `error` and whose
message contains (case-insensitively) one of the five permanent-error
substrings is skipped by every pass of the retry worker: the record is
unchanged (never set to `retrying`, `attempts` not incremented) and the
ingestion pipeline is not re-invoked. -/
theorem c2_retry_skips_permanent (maxRetry : Nat) (pipeline : IndexResult)
    (r : StatusRec) (hstat : r.status = "error".data)
    (hperm : isPermanentError r.message = true) :
    retry_worker_step maxRetry pipeline r = (r, false) := by
  unfold retry_worker_step
  rcases Nat.lt_or_ge r.attempts maxRetry with h | h
  · simp [hstat, hperm, h]
  · simp [hstat, Nat.not_lt.mpr h]

/-- Witness for C2: the record of a 0-byte file, whose stored message is
the one written by `_background_index` for the `index_file` outcome
`File is empty (0 bytes)`, is skipped unchanged. -/
theorem c2_witness :
    retry_worker_step 3
      { status := "success".data, message := none, indexed := some 1,
        collection := none }
      { status := "error".data, message := "✗ File is empty (0 bytes)".data,
        attempts := 1, debug := none }
    = ({ status := "error".data, message := "✗ File is empty (0 bytes)".data,
         attempts := 1, debug := none }, false) :=
  c2_retry_skips_permanent 3 _ _ rfl (by decide)

/-- Claim C5: result normalization returns the same flat list whether
the store replied with flat lists or with singleton lists-of-lists of
the same contents, and the result never exceeds `top_k` records. -/
theorem c5_parse_shape_invariance {D M R : Type} (docs : List D)
    (metas : List M) (dists : List R) (topK : Nat) :
    parse_chroma_results (ChromaField.flat docs) (ChromaField.flat metas)
        (ChromaField.flat dists) topK
      = parse_chroma_results (ChromaField.nested [docs])
          (ChromaField.nested [metas]) (ChromaField.nested [dists]) topK
    ∧ ∀ (dF : ChromaField D) (mF : ChromaField M) (rF : ChromaField R),
        (parse_chroma_results dF mF rF topK).length ≤ topK := by
  refine ⟨rfl, fun dF mF rF => ?_⟩
  simp only [parse_chroma_results, List.length_map, List.length_range]
  omega

/-- Claim C8: chunking a blank text returns the empty sequence under
every strategy, and embedding an empty list of texts returns the empty
list without invoking the embedding model. -/
theorem c8_empty_noop :
    (∀ (cfg : ChunkCfg) (strategy : StratKind) (fuel : Nat) (text : Str),
        stripEmpty text = true →
        ChunkingStrategy.chunk cfg text strategy fuel = some [])
    ∧ ∀ (encode : List Str → List (List Int)),
        generate_embeddings encode [] = ([], false) := by
  refine ⟨fun cfg strategy fuel text h => ?_, fun encode => rfl⟩
  unfold ChunkingStrategy.chunk
  simp [h]

/-- Witness for C8 at a whitespace-only text and a nontrivial model. -/
theorem c8_witness :
    ChunkingStrategy.chunk {} (" \n\t ".data) StratKind.auto 0 = some []
    ∧ generate_embeddings (fun _ => [[5]]) [] = ([], false) :=
  ⟨c8_empty_noop.1 {} StratKind.auto 0 (" \n\t ".data) (by decide),
   c8_empty_noop.2 _⟩

/-- Claim C9: an empty or whitespace-only query makes `semantic_search`
return the empty sequence without invoking the embedding service or the
vector store. -/
theorem c9_empty_query (deps : SearchDeps) (query : Str) (topK : Nat)
    (filterMeta : Option MetaDict) (h : stripEmpty query = true) :
    semantic_search deps query topK filterMeta = ([], false, false) := by
  unfold semantic_search
  simp [h]

/-- Witness for C9 at a whitespace-only query. -/
theorem c9_witness :
    semantic_search
      { encode := fun _ => [[7]],
        store := fun _ _ _ =>
          (ChromaField.flat [], ChromaField.flat [], ChromaField.flat []) }
      ("  ".data) 5 none = ([], false, false) :=
  c9_empty_query _ _ _ _ (by decide)

/-- After `delete_file_from_chroma`, no remaining entry carries the
deleted `file_id` in its metadata. -/
theorem delete_from_chroma_clears (coll : List StoredEntry) (fid : Str)
    (e : StoredEntry) (he : e ∈ (delete_file_from_chroma coll fid).1) :
    metaFileId e.meta ≠ some fid := by
  intro hfid
  unfold delete_file_from_chroma at he
  by_cases hids :
      ((coll.filter (fun x => metaFileId x.meta == some fid)).map
        (fun x => x.id)).isEmpty
  · rw [if_pos hids] at he
    have hmem : e ∈ coll.filter (fun x => metaFileId x.meta == some fid) :=
      List.mem_filter.mpr ⟨he, by simp [hfid]⟩
    have : e.id ∈ (coll.filter
        (fun x => metaFileId x.meta == some fid)).map (fun x => x.id) :=
      List.mem_map.mpr ⟨e, hmem, rfl⟩
    rw [List.isEmpty_iff] at hids
    rw [hids] at this
    exact absurd this (List.not_mem_nil _)
  · rw [if_neg hids] at he
    have h2 := List.mem_filter.mp he
    have hmem : e ∈ coll.filter (fun x => metaFileId x.meta == some fid) :=
      List.mem_filter.mpr ⟨h2.1, by simp [hfid]⟩
    have hin : e.id ∈ (coll.filter
        (fun x => metaFileId x.meta == some fid)).map (fun x => x.id) :=
      List.mem_map.mpr ⟨e, hmem, rfl⟩
    have := h2.2
    simp only [Bool.not_eq_true'] at this
    rw [List.contains_eq_any_beq] at this
    simp only [List.any_eq_false] at this
    exact this e.id hin (by simp)

/-- Erasing a key makes subsequent lookup fail. -/
theorem lookup_eraseKey (m : StatusMap) (k : Str) :
    lookupKey (eraseKey m k) k = none := by
  unfold lookupKey eraseKey
  rw [Option.map_eq_none', List.find?_eq_none]
  intro kv hkv
  have := (List.mem_filter.mp hkv).2
  simpa using this

/-- Claim C10: calling the delete endpoint for a `file_id` whose
physical file is absent still removes that file's vector-store entries
and its status record, and only then reports a 404 — the not-found
outcome mutates shared state. -/
theorem c10_delete_not_atomic (st : ApiState) (fid : Str)
    (h : st.fileOnDisk = false) :
    (delete_file st fid).1
      = ApiOutcome.httpError 404 ("File not found: ".data ++ fid)
    ∧ (∀ e ∈ (delete_file st fid).2.coll, metaFileId e.meta ≠ some fid)
    ∧ lookupKey (delete_file st fid).2.statusMap fid = none := by
  unfold delete_file
  rw [if_neg (by simp [h])]
  exact ⟨rfl, fun e he => delete_from_chroma_clears st.coll fid e he,
    lookup_eraseKey st.statusMap fid⟩

/-- Witness for C10: a state holding one vector entry and one status
record for the file; both are purged although the endpoint reports 404. -/
theorem c10_witness :
    (delete_file
        { coll := [{ id := "f_0".data, document := "d".data,
                     meta := chunkMeta "f.txt".data 0 "f".data }],
          statusMap := [("f".data,
            { status := "indexed".data, message := [], attempts := 0,
              debug := none })],
          fileOnDisk := false, removeOk := true } ("f".data)).1
      = ApiOutcome.httpError 404 ("File not found: f".data)
    ∧ lookupKey (delete_file
        { coll := [{ id := "f_0".data, document := "d".data,
                     meta := chunkMeta "f.txt".data 0 "f".data }],
          statusMap := [("f".data,
            { status := "indexed".data, message := [], attempts := 0,
              debug := none })],
          fileOnDisk := false, removeOk := true } ("f".data)).2.statusMap
        ("f".data) = none := by
  have h := c10_delete_not_atomic
    { coll := [{ id := "f_0".data, document := "d".data,
                 meta := chunkMeta "f.txt".data 0 "f".data }],
      statusMap := [("f".data,
        { status := "indexed".data, message := [], attempts := 0,
          debug := none })],
      fileOnDisk := false, removeOk := true } ("f".data) rfl
  exact ⟨h.1, h.2.2⟩

/-- A valid configuration in the claimed range `0 ≤ overlap < chunk_size`
on which character-mode chunking loops forever. -/
def c1cfg : ChunkCfg := { chunk_size := 50, overlap := 20 }

/-- The text on which the loop gets stuck: its only space sits at index
21, so the backward word-boundary nudge keeps moving `end` to 21 while
`start = end - overlap = 1` no longer changes; the guard
`if start <= 0: start = end` never fires. -/
def c1text : Str := List.replicate 21 'a' ++ ' ' :: List.replicate 278 'b'

theorem c1_step_from_zero : cbcNext c1cfg c1text 0 = (1, none) := by decide

theorem c1_step_from_one : cbcNext c1cfg c1text 1 = (1, none) := by decide

/-- From `start = 1` the loop body never changes the state, so no amount
of fuel finishes the loop. -/
theorem c1_stuck_at_one : ∀ (fuel : Nat) (acc : List Str),
    cbcGo c1cfg c1text fuel 1 acc = none := by
  intro fuel
  induction fuel with
  | zero => intro acc; rfl
  | succ n ih =>
    intro acc
    have hlt : (1 : Nat) < c1text.length := by decide
    simp only [cbcGo, c1_step_from_one, if_pos hlt, Option.toList_none,
      List.append_nil]
    exact ih acc

/-- Claim C1 (failing part): on `c1text` with the valid parameters
`chunk_size = 50 > overlap = 20`, `chunk_by_characters` makes no
progress and never returns, for every amount of fuel — the Python
`while` loop runs forever, contradicting the claimed guaranteed
termination of every chunking strategy. -/
theorem c1_character_chunking_diverges :
    c1cfg.overlap < c1cfg.chunk_size
    ∧ c1text ≠ []
    ∧ ∀ fuel : Nat, chunk_by_characters c1cfg c1text fuel = none := by
  refine ⟨by decide, by decide, fun fuel => ?_⟩
  cases fuel with
  | zero =>
    simp only [chunk_by_characters]
    rw [if_neg (by decide)]
    rfl
  | succ n =>
    simp only [chunk_by_characters]
    rw [if_neg (by decide)]
    have hlt : (0 : Nat) < c1text.length := by decide
    simp only [cbcGo, c1_step_from_zero, if_pos hlt, Option.toList_none,
      List.append_nil]
    exact c1_stuck_at_one n []

/-- An `indexed` record with two recorded attempts, used to exhibit the
behaviour of manual reindex. -/
def c6rec : StatusRec where
  status := "indexed".data
  message := []
  attempts := 2
  debug := none

/-- Counterexample to C6 as stated: manual reindex moves an `indexed`
record straight to `indexing` — an edge outside the claimed transition
relation — and resets `attempts` from 2 to 0, so `attempts` is not
monotonically non-decreasing under the reindex step. -/
theorem c6_counterexample :
    (reindexStart (some c6rec)).status = "indexing".data
    ∧ allowedEdge c6rec.status (reindexStart (some c6rec)).status = false
    ∧ (reindexStart (some c6rec)).attempts = 0
    ∧ c6rec.attempts = 2 := by
  exact ⟨rfl, by decide, rfl, rfl⟩

/-- Claim C6 (amended): under upload, background indexing and the retry
worker, every step follows the allowed edges
`uploaded → indexing → {indexed | error}` and
`error → retrying → {indexed | error}` and never decreases `attempts`;
the automatic retry path keeps `attempts ≤ INDEX_RETRY_MAX`.  Manual
reindex is the exception: it moves any record to `indexing` and resets
`attempts` to 0. -/
theorem c6_amended_transitions :
    (uploadInitRec.status = "uploaded".data ∧ uploadInitRec.attempts = 0)
    ∧ (∀ r : StatusRec, r.status = "uploaded".data →
        (bgIndexStart (some r)).status = "indexing".data
        ∧ allowedEdge r.status (bgIndexStart (some r)).status = true
        ∧ (bgIndexStart (some r)).attempts = r.attempts)
    ∧ (∀ (res : IndexResult) (r : StatusRec), r.status = "indexing".data →
        allowedEdge r.status (bgIndexFinish res r).status = true
        ∧ (bgIndexFinish res r).attempts = r.attempts)
    ∧ (∀ (e : Str) (r : StatusRec),
        (bgIndexCrash e r).status = "error".data
        ∧ r.attempts ≤ (bgIndexCrash e r).attempts)
    ∧ (∀ (maxRetry : Nat) (r : StatusRec), r.status = "error".data →
        r.attempts < maxRetry →
        (retryMark r).status = "retrying".data
        ∧ allowedEdge r.status (retryMark r).status = true
        ∧ (retryMark r).attempts = r.attempts + 1
        ∧ (retryMark r).attempts ≤ maxRetry)
    ∧ (∀ (pipeline : IndexResult) (m : StatusRec),
        m.status = "retrying".data →
        allowedEdge m.status (retryFinish pipeline m).status = true
        ∧ (retryFinish pipeline m).attempts = m.attempts)
    ∧ (∀ r0 : Option StatusRec,
        (reindexStart r0).status = "indexing".data
        ∧ (reindexStart r0).attempts = 0) := by
  refine ⟨⟨rfl, rfl⟩, ?_, ?_, ?_, ?_, ?_, ?_⟩
  · intro r h
    refine ⟨rfl, ?_, rfl⟩
    rw [h]
    show allowedEdge "uploaded".data "indexing".data = true
    decide
  · intro res r h
    unfold bgIndexFinish
    by_cases hs : res.status == "success".data
    · rw [if_pos hs]
      refine ⟨?_, rfl⟩
      rw [h]
      show allowedEdge "indexing".data "indexed".data = true
      decide
    · rw [if_neg hs]
      refine ⟨?_, rfl⟩
      rw [h]
      show allowedEdge "indexing".data "error".data = true
      decide
  · intro e r
    exact ⟨rfl, Nat.le_succ _⟩
  · intro maxRetry r h hlt
    refine ⟨rfl, ?_, rfl, hlt⟩
    rw [h]
    show allowedEdge "error".data "retrying".data = true
    decide
  · intro pipeline m h
    unfold retryFinish
    by_cases hs : pipeline.status == "success".data
    · rw [if_pos hs]
      refine ⟨?_, rfl⟩
      rw [h]
      show allowedEdge "retrying".data "indexed".data = true
      decide
    · rw [if_neg hs]
      refine ⟨?_, rfl⟩
      rw [h]
      show allowedEdge "retrying".data "error".data = true
      decide
  · intro r0
    exact ⟨rfl, rfl⟩

/-- A failed record the retry worker may pick up. -/
def c6errRec : StatusRec where
  status := "error".data
  message := "✗ boom".data
  attempts := 1
  debug := none

/-- Witness for C6 (amended), exercising the upload-to-indexing step,
the retry marking of a transient failure, and a manual reindex. -/
theorem c6_witness :
    ((bgIndexStart (some uploadInitRec)).status = "indexing".data
      ∧ allowedEdge uploadInitRec.status
          (bgIndexStart (some uploadInitRec)).status = true
      ∧ (bgIndexStart (some uploadInitRec)).attempts = uploadInitRec.attempts)
    ∧ ((retryMark c6errRec).status = "retrying".data
      ∧ (retryMark c6errRec).attempts ≤ 3)
    ∧ (reindexStart none).attempts = 0 := by
  have h1 := c6_amended_transitions.2.1 uploadInitRec rfl
  have h2 := c6_amended_transitions.2.2.2.2.1 3 c6errRec rfl (by decide)
  have h3 := c6_amended_transitions.2.2.2.2.2.2 none
  exact ⟨h1, ⟨h2.1, h2.2.2.2⟩, h3.2⟩

/-- Claim C7: a successful `index_file` run that produced `N` chunks
adds exactly the entries with ids `{file_id}_0 … {file_id}_{N-1}` in
chunk order, gives the `i`-th entry the metadata
`{source: basename(path), chunk_index: i, file_id}`, and reports
`indexed = N`. -/
theorem c7_store_ids_metadata (cs ov : Nat) (filePath fid : Str)
    (deps : IndexDeps) (fuel sz : Nat) (text : Str)
    (embs : List (List Int)) (chunks : List Str)
    (hfid : fid ≠ [])
    (hex : deps.pathExists = true)
    (hsz : deps.sizeRes = Except.ok sz) (hsz0 : sz ≠ 0)
    (hext : deps.extractRes = Except.ok text)
    (htext : stripEmpty text = false)
    (hch : chunk_text cs ov text fuel = some chunks)
    (hne : chunks ≠ [])
    (hemb : deps.embedRes = Except.ok embs)
    (hst : deps.storeRes = Except.ok ()) :
    index_file cs ov filePath (some fid) deps fuel
      = some
        ({ status := "success".data, message := none,
           indexed := some chunks.length,
           collection := some "servibot_docs".data },
         some
          { ids := (List.range chunks.length).map
              (fun i => fid ++ '_' :: (Nat.repr i).data),
            documents := chunks, embeddings := embs,
            metadatas := (List.range chunks.length).map
              (fun i => chunkMeta (basenameOf filePath) i fid) }) := by
  have hfid2 : fid.isEmpty = false := by
    cases fid with
    | nil => exact absurd rfl hfid
    | cons c rest => rfl
  have hne2 : chunks.isEmpty = false := by
    cases chunks with
    | nil => exact absurd rfl hne
    | cons c rest => rfl
  obtain ⟨pe, sr, er, mr, str⟩ := deps
  simp only at hex hsz hext hemb hst
  subst hex hsz hext hemb hst
  simp [index_file, store_in_chroma, resolveFileId, hfid2, htext, hne2,
    hch, hsz0]

/-- A fully successful set of collaborator outcomes for one small file. -/
def c7deps : IndexDeps where
  pathExists := true
  sizeRes := Except.ok 5
  extractRes := Except.ok "hola mundo".data
  embedRes := Except.ok [[1]]
  storeRes := Except.ok ()

/-- Witness for C7: indexing a one-chunk file yields the id `doc1_0`,
the metadata `{source: a.txt, chunk_index: 0, file_id: doc1}` and the
reported count 1. -/
theorem c7_witness :
    index_file 1000 200 ("/tmp/docs/a.txt".data) (some "doc1".data)
        c7deps 100
      = some
        ({ status := "success".data, message := none, indexed := some 1,
           collection := some "servibot_docs".data },
         some
          { ids := ["doc1_0".data], documents := ["hola mundo".data],
            embeddings := [[1]],
            metadatas := [[("source".data, MetaVal.s "a.txt".data),
              ("chunk_index".data, MetaVal.n 0),
              ("file_id".data, MetaVal.s "doc1".data)]] }) := by
  have h := c7_store_ids_metadata 1000 200 ("/tmp/docs/a.txt".data)
    ("doc1".data) c7deps 100 5 ("hola mundo".data) [[1]]
    ["hola mundo".data] (by decide) rfl rfl (by decide) rfl (by decide)
    (by decide) (by decide) rfl rfl
  rw [h]
  decide

/-- Claim C3 (amended): `index_file` always returns a result whose
status is `success` or `error` and never raises; every failure message
is either the file-not-found message (which embeds the full path), the
size-check message (which embeds the raw error text), or a message of
at most 225 characters — a fixed prefix plus the exception text
truncated to 200 characters. -/
theorem c3_index_file_status_and_bounds (cs ov : Nat) (filePath : Str)
    (fileId0 : Option Str) (deps : IndexDeps) (fuel : Nat)
    (r : IndexResult) (sc : Option StoreCall)
    (h : index_file cs ov filePath fileId0 deps fuel = some (r, sc)) :
    (r.status = "success".data ∨ r.status = "error".data)
    ∧ ∀ m, r.message = some m →
        m = "File not found: ".data ++ filePath
        ∨ (∃ e, deps.sizeRes = Except.error e
            ∧ m = "Error checking file: ".data ++ e)
        ∨ m.length ≤ 225 := by
  simp only [index_file] at h
  iterate 10 all_goals try split at h
  all_goals first
    | exact Option.noConfusion h
    | (injection h with h1
       injection h1 with h2 h3
       subst h2
       refine ⟨?_, fun m hm => ?_⟩
       case _ => first | exact Or.inl rfl | exact Or.inr rfl
       first
         | exact Option.noConfusion hm
         | (injection hm with hm1
            subst hm1
            first
              | exact Or.inl rfl
              | exact Or.inr (Or.inl ⟨_,
                  by first | assumption | (apply Eq.symm; assumption), rfl⟩)
              | exact Or.inr (Or.inr (by decide))
              | (refine Or.inr (Or.inr ?_)
                 simp only [List.length_append, List.length_take]
                 simp
                 omega)))

/-- A 201-character path to a missing file. -/
def c3cxPath : Str := List.replicate 201 'p'

def c3cxDeps : IndexDeps where
  pathExists := false
  sizeRes := Except.ok 1
  extractRes := Except.ok []
  embedRes := Except.ok []
  storeRes := Except.ok ()

/-- Counterexample to C3 as stated: the file-not-found diagnostic embeds
the full path untruncated, so for a 201-character path the returned
message has 217 characters — more than the claimed 200-character bound. -/
theorem c3_counterexample :
    index_file 1000 200 c3cxPath (some ['f']) c3cxDeps 1
      = some (errRes ("File not found: ".data ++ c3cxPath), none)
    ∧ 200 < ("File not found: ".data ++ c3cxPath).length := by
  exact ⟨rfl, by decide⟩

def c3wDeps : IndexDeps where
  pathExists := true
  sizeRes := Except.ok 3
  extractRes := Except.ok "abc".data
  embedRes := Except.error (List.replicate 300 'x')
  storeRes := Except.ok ()

def c3wRes : IndexResult :=
  errRes ("Embedding failed: ".data ++ List.replicate 200 'x')

/-- Witness for C3 (amended) at a concrete run in which the embedding
stage fails with a 300-character exception text: the status is `error`
and the stored message is bounded by 225 characters. -/
theorem c3_witness :
    (c3wRes.status = "success".data ∨ c3wRes.status = "error".data)
    ∧ ("Embedding failed: ".data ++ List.replicate 200 'x').length ≤ 225 := by
  have hrun : index_file 1000 200 ("/u/f.txt".data) (some "f".data)
      c3wDeps 10 = some (c3wRes, none) := by decide
  have h := c3_index_file_status_and_bounds 1000 200 ("/u/f.txt".data)
    (some "f".data) c3wDeps 10 c3wRes none hrun
  refine ⟨h.1, ?_⟩
  rcases h.2 _ rfl with h1 | h2 | h3
  · exact absurd h1 (by decide)
  · obtain ⟨e, he, _⟩ := h2
    exact absurd he (by simp [c3wDeps])
  · exact h3

/-- The glue of the chunks after the first: each later `chunk_text`
chunk starts with the final `overlap` characters of its predecessor, so
dropping that prefix and concatenating reconstructs the rest. -/
def tailGlue (ov : Nat) (l : List Str) : Str :=
  (l.map (List.drop ov)).flatten

/-- Reassembling a chunk list: the first chunk followed by every later
chunk without its `overlap`-character prefix. -/
def reconstruct (ov : Nat) : List Str → Str
  | [] => []
  | c :: rest => c ++ tailGlue ov rest

theorem sliceL_append_drop (text : Str) (a b : Nat) (hab : a ≤ b) :
    sliceL text a b ++ text.drop b = text.drop a := by
  unfold sliceL
  have h1 : (text.drop a).drop (b - a) = text.drop b := by
    rw [List.drop_drop]
    congr 1
    omega
  calc (text.drop a).take (b - a) ++ text.drop b
      = (text.drop a).take (b - a) ++ (text.drop a).drop (b - a) := by
        rw [h1]
    _ = text.drop a := List.take_append_drop _ _

theorem drop_sliceL (text : Str) (a b ov : Nat) :
    (sliceL text a b).drop ov = sliceL text (a + ov) b := by
  unfold sliceL
  rw [List.drop_take, List.drop_drop,
    show b - a - ov = b - (a + ov) from by omega]

theorem sliceL_to_end (text : Str) (a : Nat) :
    sliceL text a text.length = text.drop a := by
  unfold sliceL
  have h : text.length - a = (text.drop a).length := by
    rw [List.length_drop]
  rw [h, List.take_length]

theorem tailGlue_ctGo (cs ov : Nat) (hcs : 0 < cs) (hov : ov < cs)
    (text : Str) :
    ∀ (fuel start : Nat) (l : List Str), start < text.length →
      ctGo cs ov text fuel start = some l →
      tailGlue ov l = text.drop (start + ov) := by
  intro fuel
  induction fuel with
  | zero => intro start l hs hl; exact Option.noConfusion hl
  | succ n ih =>
    intro start l hs hl
    simp only [ctGo] at hl
    rw [if_pos hs] at hl
    set E := min (start + cs) text.length with hE
    by_cases he : E < text.length
    · rw [if_pos he] at hl
      cases harg : ctGo cs ov text n (E - ov) with
      | none => rw [harg] at hl; exact Option.noConfusion hl
      | some rest =>
        rw [harg] at hl
        injection hl with hl1
        subst hl1
        have hlt : E - ov < text.length := by omega
        have ihr := ih (E - ov) rest hlt harg
        have hEov : E - ov + ov = E := by omega
        rw [hEov] at ihr
        show (sliceL text start E).drop ov ++ tailGlue ov rest
          = text.drop (start + ov)
        rw [ihr, drop_sliceL]
        exact sliceL_append_drop text (start + ov) E (by omega)
    · rw [if_neg he] at hl
      cases harg : ctGo cs ov text n E with
      | none => rw [harg] at hl; exact Option.noConfusion hl
      | some rest =>
        rw [harg] at hl
        injection hl with hl1
        subst hl1
        have hrest : rest = [] := by
          cases n with
          | zero => exact Option.noConfusion harg
          | succ m =>
            simp only [ctGo] at harg
            rw [if_neg (by omega)] at harg
            exact (Option.some.injEq .. ▸ harg).symm
        subst hrest
        have hEl : E = text.length := by omega
        show (sliceL text start E).drop ov ++ tailGlue ov []
          = text.drop (start + ov)
        simp only [tailGlue, List.map_nil, List.flatten_nil, List.append_nil]
        rw [drop_sliceL, hEl, sliceL_to_end]

theorem reconstruct_ctGo (cs ov : Nat) (hcs : 0 < cs) (hov : ov < cs)
    (text : Str) (fuel start : Nat) (l : List Str)
    (hs : start < text.length) (hl : ctGo cs ov text fuel start = some l) :
    reconstruct ov l = text.drop start := by
  cases fuel with
  | zero => exact Option.noConfusion hl
  | succ n =>
    simp only [ctGo] at hl
    rw [if_pos hs] at hl
    set E := min (start + cs) text.length with hE
    by_cases he : E < text.length
    · rw [if_pos he] at hl
      cases harg : ctGo cs ov text n (E - ov) with
      | none => rw [harg] at hl; exact Option.noConfusion hl
      | some rest =>
        rw [harg] at hl
        injection hl with hl1
        subst hl1
        have hlt : E - ov < text.length := by omega
        have hg := tailGlue_ctGo cs ov hcs hov text n (E - ov) rest hlt harg
        have hEov : E - ov + ov = E := by omega
        rw [hEov] at hg
        show sliceL text start E ++ tailGlue ov rest = text.drop start
        rw [hg]
        exact sliceL_append_drop text start E (by omega)
    · rw [if_neg he] at hl
      cases harg : ctGo cs ov text n E with
      | none => rw [harg] at hl; exact Option.noConfusion hl
      | some rest =>
        rw [harg] at hl
        injection hl with hl1
        subst hl1
        have hrest : rest = [] := by
          cases n with
          | zero => exact Option.noConfusion harg
          | succ m =>
            simp only [ctGo] at harg
            rw [if_neg (by omega)] at harg
            exact (Option.some.injEq .. ▸ harg).symm
        subst hrest
        have hEl : E = text.length := by omega
        show sliceL text start E ++ tailGlue ov [] = text.drop start
        simp only [tailGlue, List.map_nil, List.flatten_nil, List.append_nil]
        rw [hEl, sliceL_to_end]

theorem ctGo_total (cs ov : Nat) (hcs : 0 < cs) (hov : ov < cs)
    (text : Str) :
    ∀ (fuel start : Nat), text.length - start < fuel →
      (ctGo cs ov text fuel start).isSome = true := by
  intro fuel
  induction fuel with
  | zero => intro start h; omega
  | succ n ih =>
    intro start h
    simp only [ctGo]
    by_cases hs : start < text.length
    · rw [if_pos hs]
      set E := min (start + cs) text.length with hE
      by_cases he : E < text.length
      · rw [if_pos he]
        have hrec := ih (E - ov) (by omega)
        cases hg : ctGo cs ov text n (E - ov) with
        | none => rw [hg] at hrec; exact absurd hrec (by simp)
        | some rest => rfl
      · rw [if_neg he]
        have hrec := ih E (by omega)
        cases hg : ctGo cs ov text n E with
        | none => rw [hg] at hrec; exact absurd hrec (by simp)
        | some rest => rfl
    · rw [if_neg hs]; rfl

theorem replaceCRLF_ne_nil (t : Str) (h : t ≠ []) : replaceCRLF t ≠ [] := by
  unfold replaceCRLF
  split
  · exact absurd rfl h
  · simp
  · simp

/-- If `cbcNext` emits a chunk, that chunk passed the minimum-length
check of chunking.py line 162. -/
theorem cbcNext_emit (cfg : ChunkCfg) (text : Str) (start : Nat) (c : Str)
    (h : (cbcNext cfg text start).2 = some c) :
    cfg.min_chunk_size ≤ c.length := by
  replace h : cbcEmit cfg text start = some c := h
  unfold cbcEmit at h
  simp only at h
  split at h
  · rename_i hcond
    injection h with h1
    subst h1
    simp only [Bool.and_eq_true, decide_eq_true_eq] at hcond
    exact hcond.2
  · exact Option.noConfusion h

theorem cbcGo_min (cfg : ChunkCfg) (text : Str) :
    ∀ (fuel start : Nat) (acc l : List Str),
      (∀ c ∈ acc, cfg.min_chunk_size ≤ c.length) →
      cbcGo cfg text fuel start acc = some l →
      ∀ c ∈ l, cfg.min_chunk_size ≤ c.length := by
  intro fuel
  induction fuel with
  | zero => intro start acc l hacc hl; exact Option.noConfusion hl
  | succ n ih =>
    intro start acc l hacc hl
    simp only [cbcGo] at hl
    by_cases hs : start < text.length
    · rw [if_pos hs] at hl
      refine ih _ _ l ?_ hl
      intro c hc
      rcases List.mem_append.mp hc with h1 | h2
      · exact hacc c h1
      · cases hemit : (cbcNext cfg text start).2 with
        | none => rw [hemit] at h2; simp at h2
        | some c2 =>
          rw [hemit] at h2
          simp only [Option.toList_some, List.mem_singleton] at h2
          cases h2
          exact cbcNext_emit cfg text start _ hemit
    · rw [if_neg hs] at hl
      injection hl with h1
      subst h1
      exact hacc

/-- Counterexample to C4 as stated: the non-empty text `hello` (auto
strategy resolves to character mode, which drops every chunk shorter
than `min_chunk_size = 100`) produces the empty chunk sequence, so
`chunk` on non-empty input is not always non-empty and its output does
not cover the source. -/
theorem c4_counterexample :
    ChunkingStrategy.chunk {} ("hello".data) StratKind.auto 10 = some []
    ∧ "hello".data ≠ [] := by
  exact ⟨by decide, by decide⟩

/-- Claim C4 (amended): the ingestion chunker `chunk_text` on non-empty
text with `0 < chunk_size` and `overlap < chunk_size` yields a
non-empty sequence that reconstructs the CRLF-normalized source text
(each chunk after the first repeats the final `overlap` characters of
its predecessor); and character-mode `ChunkingStrategy` chunking emits
only chunks of at least `min_chunk_size` characters (the sequence may
be empty for short texts, as the counterexample shows). -/
theorem c4_amended_coverage_and_min_length :
    (∀ (cs ov : Nat) (text : Str) (fuel : Nat), 0 < cs → ov < cs →
        text ≠ [] → (replaceCRLF text).length < fuel →
        ∃ l, chunk_text cs ov text fuel = some l ∧ l ≠ []
          ∧ reconstruct ov l = replaceCRLF text)
    ∧ (∀ (cfg : ChunkCfg) (text : Str) (fuel : Nat) (l : List Str),
        chunk_by_characters cfg text fuel = some l →
        ∀ c ∈ l, cfg.min_chunk_size ≤ c.length) := by
  constructor
  · intro cs ov text fuel hcs hov htext hfuel
    have hT : replaceCRLF text ≠ [] := replaceCRLF_ne_nil text htext
    have hTl : 0 < (replaceCRLF text).length := List.length_pos.mpr hT
    have hsome := ctGo_total cs ov hcs hov (replaceCRLF text) fuel 0
      (by omega)
    obtain ⟨l, hl⟩ := Option.isSome_iff_exists.mp hsome
    have hrec := reconstruct_ctGo cs ov hcs hov (replaceCRLF text) fuel 0 l
      hTl hl
    simp only [List.drop_zero] at hrec
    refine ⟨l, ?_, ?_, hrec⟩
    · unfold chunk_text
      rw [if_neg htext]
      exact hl
    · intro h0
      subst h0
      exact hT hrec.symm
  · intro cfg text fuel l hl
    unfold chunk_by_characters at hl
    by_cases ht : text.isEmpty
    · rw [if_pos ht] at hl
      injection hl with h1
      subst h1
      intro c hc
      exact absurd hc (List.not_mem_nil c)
    · rw [if_neg ht] at hl
      exact cbcGo_min cfg text fuel 0 [] l
        (fun c hc => absurd hc (List.not_mem_nil c)) hl

/-- Witness for C4 (amended): `chunk_text 4 1` on `abcdef` yields the
chunks `abcd`, `def`; dropping the 1-character overlap prefix of the
second chunk and concatenating reconstructs the source; and a concrete
character-mode run with `min_chunk_size = 5` emits only chunks of at
least 5 characters. -/
theorem c4_witness :
    chunk_text 4 1 ("abcdef".data) 10 = some ["abcd".data, "def".data]
    ∧ reconstruct 1 ["abcd".data, "def".data] = "abcdef".data
    ∧ 5 ≤ ("abcdefgh".data).length := by
  have h := c4_amended_coverage_and_min_length.1 4 1 ("abcdef".data) 10
    (by decide) (by decide) (by decide) (by decide)
  obtain ⟨l, hl, hne, hrec⟩ := h
  have hval : chunk_text 4 1 ("abcdef".data) 10
      = some ["abcd".data, "def".data] := by decide
  have hl2 : l = ["abcd".data, "def".data] := by
    have := hl.symm.trans hval
    exact Option.some.injEq .. ▸ this
  subst hl2
  have h2 := c4_amended_coverage_and_min_length.2
    { chunk_size := 30, overlap := 10, min_chunk_size := 5 }
    ("abcdefgh".data) 10 ["abcdefgh".data] (by decide) ("abcdefgh".data)
    (by simp)
  exact ⟨hval, by exact hrec, h2⟩
